import Mathlib

/-!
Verification of the numerical simulation engine of the adversarial min-max
game repository (`src/utils/gameUtils.js`).

The JavaScript engine is shallowly embedded over the real numbers:

* a grid is a `List (List ℝ)` (row-major, `grid[i][j]`);
* every stochastic draw (`Math.random()` / `boxMullerTransform()`) becomes an
  explicit real-valued parameter (or a function of the cell index), so the
  theorems quantify over all possible noise;
* JavaScript expressions that have no real-number value (out-of-bounds array
  access yielding `undefined`, hence `NaN` or a `TypeError` downstream, and
  `Math.log 0 = -Infinity`) are modelled by `Option`: `none` marks a call
  that does not return a well-defined real result.
-/

namespace GameUtils

/-- Grid of loss values, row-major, as built by `generateLossLandscape`. -/
abbrev Grid := List (List ℝ)

/-- Total cell read `grid[i][j]`, defaulting to `0` out of range.  The
smoothing pass only ever reads in-bounds cells of a rectangular grid, so the
default is never observable there. -/
def cell (g : Grid) (i j : ℕ) : ℝ := (g.getD i []).getD j 0

/-- Write `grid[i][j] = v` (a no-op out of range, which never happens in the
smoothing pass). -/
def setCell (g : Grid) (i j : ℕ) (v : ℝ) : Grid :=
  g.set i ((g.getD i []).set j v)

/-- Partial cell read with integer indices: `none` models the JavaScript
`undefined` produced by a negative or too-large index (which turns into `NaN`
or a `TypeError` in the caller). -/
def getCell? (g : Grid) (i j : ℤ) : Option ℝ :=
  if 0 ≤ i ∧ 0 ≤ j then (g.get? i.toNat).bind fun row => row.get? j.toNat
  else none

/-- The grid is rectangular: every row has the length of row 0
(`grid[0].length`, the `cols` the engine reads). -/
def Rectangular (g : Grid) : Prop :=
  ∀ row ∈ g, row.length = (g.headD []).length

/-- The clamp `Math.min(Math.max(v, lo), hi)` used throughout the source. -/
def clamp (v lo hi : ℝ) : ℝ := min (max v lo) hi

/-- One Gaussian peak of the landscape (grid coordinates, height, spread). -/
structure Peak where
  x : ℝ
  y : ℝ
  height : ℝ
  spread : ℝ

/-- One saddle source of the landscape. -/
structure Saddle where
  x : ℝ
  y : ℝ
  strength : ℝ
  spreadX : ℝ
  spreadY : ℝ

/-- The fixed five Gaussian peaks of `generateLossLandscape`. -/
def peaks (cols rows : ℝ) : List Peak :=
  [ ⟨cols * 0.3, rows * 0.7, 0.8, 0.2⟩,
    ⟨cols * 0.7, rows * 0.3, 1.0, 0.2⟩,
    ⟨cols * 0.5, rows * 0.5, 0.7, 0.3⟩,
    ⟨cols * 0.2, rows * 0.2, 0.5, 0.1⟩,
    ⟨cols * 0.8, rows * 0.8, 0.6, 0.15⟩ ]

/-- The fixed two saddle points of `generateLossLandscape`. -/
def saddlePoints (cols rows : ℝ) : List Saddle :=
  [ ⟨cols * 0.4, rows * 0.4, 0.3, 0.2, 0.3⟩,
    ⟨cols * 0.6, rows * 0.6, 0.4, 0.25, 0.15⟩ ]

/-- Gaussian contribution of one peak at grid point `(j, i)`. -/
noncomputable def peakValue (cols rows : ℝ) (j i : ℝ) (p : Peak) : ℝ :=
  p.height * Real.exp (-(((j - p.x) ^ 2 + (i - p.y) ^ 2) / (cols ^ 2 + rows ^ 2)) /
    (2 * p.spread * p.spread))

/-- Saddle contribution of one saddle source at grid point `(j, i)`. -/
noncomputable def saddleValue (cols rows : ℝ) (j i : ℝ) (s : Saddle) : ℝ :=
  s.strength * (((j - s.x) / cols / s.spreadX) ^ 2 - ((i - s.y) / rows / s.spreadY) ^ 2)

/-- Raw (pre-smoothing) value of cell `(i, j)`: peaks plus `0.2` times the
saddles plus `0.08` times a Box–Muller draw plus `0.02` times a uniform draw,
clamped to `[0, 1]` (`Math.min(Math.max(value, 0), 1)`).  `nN i j` and
`nU i j` are the two stochastic draws consumed at this cell. -/
noncomputable def rawCellValue (cols rows : ℕ) (nN nU : ℕ → ℕ → ℝ) (i j : ℕ) : ℝ :=
  let gaussianValue := ((peaks cols rows).map (peakValue cols rows j i)).sum
  let saddleVal := ((saddlePoints cols rows).map (saddleValue cols rows j i)).sum
  clamp (gaussianValue + saddleVal * 0.2 + nN i j * 0.08 + nU i j * 0.02) 0 1

/-- The grid as filled by the two nested loops of `generateLossLandscape`,
before the smoothing pass. -/
noncomputable def buildGrid (rows cols : ℕ) (nN nU : ℕ → ℕ → ℝ) : Grid :=
  (List.range rows).map fun i => (List.range cols).map fun j =>
    rawCellValue cols rows nN nU i j

/-- Row-major list of the interior cell indices `(i, j)`,
`1 ≤ i ≤ rows - 2`, `1 ≤ j ≤ cols - 2`, in the traversal order of the two
nested loops of `gibbsSmoothingPass`. -/
def interior (rows cols : ℕ) : List (ℕ × ℕ) :=
  ((List.range rows).product (List.range cols)).filter
    fun p => 1 ≤ p.1 ∧ p.1 + 1 < rows ∧ 1 ≤ p.2 ∧ p.2 + 1 < cols

/-- The update formula of the smoothing pass at cell `(i, j)` read from grid
`g`: `neighborAvg` is the mean of the four neighbors,
`weight = exp(-|cell - neighborAvg| / temperature)` with `temperature = 0.2`,
and the new value is `weight * neighborAvg + (1 - weight) * cell`. -/
noncomputable def smoothedValue (g : Grid) (i j : ℕ) : ℝ :=
  let neighborAvg := (cell g (i - 1) j + cell g (i + 1) j +
    cell g i (j - 1) + cell g i (j + 1)) / 4
  let temperature : ℝ := 0.2
  let weight := Real.exp (-|cell g i j - neighborAvg| / temperature)
  weight * neighborAvg + (1 - weight) * cell g i j

/-- One in-place cell update of the smoothing pass: the source reads and
writes the same `smoothedGrid` array, so the update formula is evaluated on
the CURRENT (partially updated) grid `g`. -/
noncomputable def smoothCell (g : Grid) (i j : ℕ) : Grid :=
  setCell g i j (smoothedValue g i j)

/-- One full pass over the interior cells, in row-major order, updating the
grid in place (each update sees the values already written by earlier updates
of the same pass). -/
noncomputable def smoothingPass (rows cols : ℕ) (g : Grid) : Grid :=
  (interior rows cols).foldl (fun acc p => smoothCell acc p.1 p.2) g

/-- The smoothing of `gibbsSmoothingPass(grid, iterations)`: `rows` and
`cols` are read once (`grid.length`, `grid[0].length`), then `iterations`
in-place passes are applied to a copy of the grid. -/
noncomputable def gibbsSmoothingPass (g : Grid) (iterations : ℕ) : Grid :=
  (smoothingPass g.length (g.headD []).length)^[iterations] g

/-- The landscape generator `generateLossLandscape(width, height, resolution)`
with the per-cell stochastic draws supplied as functions.
`cols = Math.floor(width / resolution)`, `rows = Math.floor(height / resolution)`
(natural division).  The source performs NO dimension validation; when
`rows = 0` the smoothing pass crashes reading `grid[0].length` of an empty
grid (a `TypeError`), modelled here as `none`. -/
noncomputable def generateLossLandscape (width height resolution : ℕ) (nN nU : ℕ → ℕ → ℝ) :
    Option Grid :=
  let cols := width / resolution
  let rows := height / resolution
  if rows = 0 then none
  else some (gibbsSmoothingPass (buildGrid rows cols nN nU) 1)

/-- Box–Muller transform `sqrt(-2 ln u1) * cos(2π u2)` on the two uniform
draws.  `Math.random()` ranges over `[0, 1)` with no guard in the source; at
`u1 = 0` the JavaScript value is `Math.sqrt(-2 * -Infinity) * cos(...)`,
which is not a finite real — modelled as `none`. -/
noncomputable def boxMullerTransform (u1 u2 : ℝ) : Option ℝ :=
  if 0 < u1 then
    some (Real.sqrt (-2 * Real.log u1) * Real.cos (2 * Real.pi * u2))
  else none

/-- The clamped row index of `calculateGradient`:
`row = Math.min(Math.max(Math.floor(y), 1), rows - 2)`. -/
noncomputable def gradRow (g : Grid) (y : ℝ) : ℤ :=
  min (max ⌊y⌋ 1) ((g.length : ℤ) - 2)

/-- The clamped column index of `calculateGradient`:
`col = Math.min(Math.max(Math.floor(x), 1), cols - 2)`. -/
noncomputable def gradCol (g : Grid) (x : ℝ) : ℤ :=
  min (max ⌊x⌋ 1) ((((g.headD []).length : ℕ) : ℤ) - 2)

/-- Gradient estimate `calculateGradient(grid, x, y, noiseLevel)` at grid
point `(x, y)` by central differences at the clamped indices `gradRow`,
`gradCol`; when `noiseLevel > 0` each component is perturbed by a Box–Muller
draw (`n1`, `n2`) scaled by `noiseLevel` and the component's absolute value.
On grids with fewer than 3 rows or columns the clamped indices leave the
array bounds (`undefined` in JavaScript, hence `NaN` or a `TypeError`):
modelled as `none`. -/
noncomputable def calculateGradient (g : Grid) (x y noiseLevel n1 n2 : ℝ) :
    Option (ℝ × ℝ) :=
  match getCell? g (gradRow g y) (gradCol g x + 1),
        getCell? g (gradRow g y) (gradCol g x - 1),
        getCell? g (gradRow g y + 1) (gradCol g x),
        getCell? g (gradRow g y - 1) (gradCol g x) with
  | some r1, some r2, some d1, some d2 =>
    let dx0 := (r1 - r2) / 2
    let dy0 := (d1 - d2) / 2
    let dx := if noiseLevel > 0 then dx0 + n1 * noiseLevel * |dx0| else dx0
    let dy := if noiseLevel > 0 then dy0 + n2 * noiseLevel * |dy0| else dy0
    some (dx, dy)
  | _, _, _, _ => none

/-- Euclidean norm of a displacement, `Math.sqrt(dx*dx + dy*dy)`. -/
noncomputable def norm2 (v : ℝ × ℝ) : ℝ := Real.sqrt (v.1 ^ 2 + v.2 ^ 2)

/-- The adversary's perturbation budget of `simulateStep`:
`0.2 * attackStrength * (strengthRatio > 1 ? 1.2 : 1.0)`. -/
noncomputable def maxPerturbationOf (attackStrength defenseStrength : ℝ) : ℝ :=
  0.2 * attackStrength * (if attackStrength / defenseStrength > 1 then 1.2 else 1.0)

/-- The budget clamp of `simulateStep`: if the adversary displacement's norm
exceeds `maxPerturbation`, rescale it by `maxPerturbation / advDist`. -/
noncomputable def budgetClamp (advDx advDy maxPerturbation : ℝ) : ℝ × ℝ :=
  let advDist := norm2 (advDx, advDy)
  if advDist > maxPerturbation then
    (advDx * (maxPerturbation / advDist), advDy * (maxPerturbation / advDist))
  else (advDx, advDy)

/-- The targeted-jump displacement of `simulateStep`: a vector of magnitude
`0.15 * maxPerturbation` from the adversary toward the defender, or `(0, 0)`
when the direction has zero magnitude (the `dirMag > 0` guard). -/
noncomputable def targetedJump (defender adversary : ℝ × ℝ)
    (maxPerturbation : ℝ) : ℝ × ℝ :=
  let targetJump : ℝ := 0.15
  let dirX := defender.1 - adversary.1
  let dirY := defender.2 - adversary.2
  let dirMag := Real.sqrt (dirX * dirX + dirY * dirY)
  if dirMag > 0 then
    ((dirX / dirMag) * targetJump * maxPerturbation,
     (dirY / dirMag) * targetJump * maxPerturbation)
  else (0, 0)

/-- The adversary's gradient-noise level of `simulateStep`: reduced to `0.04`
when the adversary is stronger, else `0.08`. -/
noncomputable def adversaryNoiseLevel (defenseStrength attackStrength : ℝ) : ℝ :=
  if attackStrength / defenseStrength > 1 then 0.04 else 0.08

/-- The defender's gradient-noise level of `simulateStep`: increased to
`0.08` when the adversary is stronger, else `0.05`. -/
noncomputable def defenderNoiseLevel (defenseStrength attackStrength : ℝ) : ℝ :=
  if attackStrength / defenseStrength > 1 then 0.08 else 0.05

/-- One simulation step `simulateStep(defender, adversary, grid,
defenseStrength, attackStrength)`.  `nd1 nd2` / `na1 na2` are the Box–Muller
draws consumed by the defender's / adversary's gradient call and `u` the
uniform draw of the 8% targeted-jump test (`Math.random() < 0.08`).  The
declared-but-unused `defenderMomentum` / `adversaryMomentum` constants of the
source are omitted: they never affect the result.  `none` models the
out-of-bounds gradient reads on grids with fewer than 3 rows or columns. -/
noncomputable def simulateStep (defender adversary : ℝ × ℝ) (g : Grid)
    (defenseStrength attackStrength nd1 nd2 na1 na2 u : ℝ) :
    Option ((ℝ × ℝ) × (ℝ × ℝ)) :=
  let strengthRatio := attackStrength / defenseStrength
  match calculateGradient g defender.1 defender.2
          (defenderNoiseLevel defenseStrength attackStrength) nd1 nd2,
        calculateGradient g adversary.1 adversary.2
          (adversaryNoiseLevel defenseStrength attackStrength) na1 na2 with
  | some defenderGradient, some adversaryGradient =>
    let defMagnitude := norm2 defenderGradient
    let advMagnitude := norm2 adversaryGradient
    let defScale := 0.02 * defenseStrength / (0.1 + defMagnitude)
    let advScale := if strengthRatio > 1
      then 0.025 * attackStrength / (0.05 + advMagnitude)
      else 0.02 * attackStrength / (0.1 + advMagnitude)
    let defDx := -defenderGradient.1 * defScale
    let defDy := -defenderGradient.2 * defScale
    let advDx := adversaryGradient.1 * advScale
    let advDy := adversaryGradient.2 * advScale
    let maxPerturbation := maxPerturbationOf attackStrength defenseStrength
    let advDisp := budgetClamp advDx advDy maxPerturbation
    let jump := if strengthRatio > 1 ∧ u < 0.08
      then targetedJump defender adversary maxPerturbation
      else (0, 0)
    let rows : ℝ := g.length
    let cols : ℝ := (g.headD []).length
    some ((clamp (defender.1 + defDx) 0 (cols - 1),
           clamp (defender.2 + defDy) 0 (rows - 1)),
          (clamp (adversary.1 + advDisp.1 + jump.1) 0 (cols - 1),
           clamp (adversary.2 + advDisp.2 + jump.2) 0 (rows - 1)))
  | _, _ => none

/-- The advantage factor of `calculateDynamicLoss`:
`Math.max(0, strengthRatio - 1) * 0.15`. -/
noncomputable def strengthAdvantageOf (attackStrength defenseStrength : ℝ) : ℝ :=
  max 0 (attackStrength / defenseStrength - 1) * 0.15

/-- Upward adjustment applied to the defender loss when the adversary is
stronger: `Math.min(defenderLoss * (1 + strengthAdvantage), 1)`. -/
noncomputable def defAdjust (defenderLoss advantage : ℝ) : ℝ :=
  min (defenderLoss * (1 + advantage)) 1

/-- Downward adjustment applied to the adversary loss when the adversary is
stronger: `Math.max(adversaryLoss * (1 - strengthAdvantage), 0)`. -/
noncomputable def advAdjust (adversaryLoss advantage : ℝ) : ℝ :=
  max (adversaryLoss * (1 - advantage)) 0

/-- The floor-clamped row index of `calculateDynamicLoss`:
`Math.min(Math.max(Math.floor(y), 0), rows - 1)`. -/
noncomputable def lossRow (g : Grid) (y : ℝ) : ℤ :=
  min (max ⌊y⌋ 0) ((g.length : ℤ) - 1)

/-- The floor-clamped column index of `calculateDynamicLoss`:
`Math.min(Math.max(Math.floor(x), 0), cols - 1)`. -/
noncomputable def lossCol (g : Grid) (x : ℝ) : ℤ :=
  min (max ⌊x⌋ 0) ((((g.headD []).length : ℕ) : ℤ) - 1)

/-- The loss pair `calculateDynamicLoss(grid, defender, adversary, iteration,
defenseStrength, attackStrength)`.  `n1`, `n2` are the two Box–Muller draws.
The row/column indices are floor-clamped into `[0, rows-1] × [0, cols-1]`,
so the reads are in bounds on any non-empty rectangular grid; an empty grid
(`grid[0]` undefined, a `TypeError` in the source) yields `none`. -/
noncomputable def calculateDynamicLoss (g : Grid) (defender adversary : ℝ × ℝ)
    (iteration : ℕ) (defenseStrength attackStrength n1 n2 : ℝ) :
    Option (ℝ × ℝ) :=
  match getCell? g (lossRow g defender.2) (lossCol g defender.1),
        getCell? g (lossRow g adversary.2) (lossCol g adversary.1) with
  | some baseLoss, some advCellLoss =>
    let rows : ℕ := g.length
    let cols : ℕ := (g.headD []).length
    let it : ℝ := iteration
    let dx := (defender.1 - adversary.1) / (cols : ℝ)
    let dy := (defender.2 - adversary.2) / (rows : ℝ)
    let distance := Real.sqrt (dx * dx + dy * dy)
    let learningFactor := max 0.1 (1.0 - it / 500)
    let influenceRange : ℝ := 0.3
    let influence := max 0 (1.0 - distance / influenceRange)
    let oscillation := 0.1 * Real.sin (it / 10)
    let strengthRatio := attackStrength / defenseStrength
    let strengthAdvantage := strengthAdvantageOf attackStrength defenseStrength
    let defenderLoss0 :=
      (baseLoss * 0.7 + influence * 0.2 + oscillation + n1 * 0.03) * learningFactor
    let adversaryLoss0 :=
      (advCellLoss * 0.3 + baseLoss * 0.4 + influence * 0.2 + oscillation +
        n2 * 0.05) * learningFactor
    let defenderLoss1 := if strengthRatio > 1 then
        (let d := defAdjust defenderLoss0 strengthAdvantage
         if iteration > 50 then
           min (d + min 0.3 ((it - 50) / 500) * Real.sin (it / 30)) 1
         else d)
      else defenderLoss0
    let adversaryLoss1 := if strengthRatio > 1 then
        advAdjust adversaryLoss0 strengthAdvantage
      else adversaryLoss0
    some (clamp defenderLoss1 0 1, clamp adversaryLoss1 0 1)
  | _, _ => none

/-- Smoothing pass following the specification's words (its §4.2a) rather
than the source: every interior cell's new value is the update formula
`smoothedValue` computed from a snapshot of the grid taken before any cell
of the pass was modified, and the outermost ring is left untouched.  Stated
for comparison with the source's `gibbsSmoothingPass`, which updates the
grid in place. -/
noncomputable def snapshotSmoothingPass (g : Grid) (iterations : ℕ) : Grid :=
  let rows := g.length
  let cols := (g.headD []).length
  (fun g0 => (List.range rows).map fun i => (List.range cols).map fun j =>
    if 1 ≤ i ∧ i + 1 < rows ∧ 1 ≤ j ∧ j + 1 < cols then
      smoothedValue g0 i j
    else cell g0 i j)^[iterations] g

/-! ### Basic lemmas about the embedding -/

/-- Every value of the unit-interval clamp lies in the unit interval. -/
theorem clamp_mem_unit (v : ℝ) : 0 ≤ clamp v 0 1 ∧ clamp v 0 1 ≤ 1 :=
  ⟨le_min (le_max_right v 0) zero_le_one, min_le_right _ 1⟩

/-- A `getD` read returns the default or a member of the list. -/
theorem getD_eq_or_mem {α : Type} (l : List α) (n : ℕ) (d : α) :
    l.getD n d = d ∨ l.getD n d ∈ l := by
  rw [List.getD_eq_getElem?_getD]
  cases h : l[n]? with
  | none => exact Or.inl rfl
  | some a => exact Or.inr (by simpa using List.getElem?_mem h)

/-- Every cell of the grid (including the out-of-range default `0`) lies in
the unit interval once every stored value does. -/
def InUnit (g : Grid) : Prop := ∀ row ∈ g, ∀ v ∈ row, 0 ≤ v ∧ v ≤ 1

theorem inUnit_cell_mem {g : Grid} (h : InUnit g) (i j : ℕ) :
    0 ≤ cell g i j ∧ cell g i j ≤ 1 := by
  unfold cell
  rcases getD_eq_or_mem g i [] with he | hm
  · rw [he]; simp
  · rcases getD_eq_or_mem (g.getD i []) j 0 with he' | hm'
    · rw [he']; exact ⟨le_refl 0, zero_le_one⟩
    · exact h _ hm _ hm'

theorem inUnit_setCell {g : Grid} (h : InUnit g) {v : ℝ}
    (hv : 0 ≤ v ∧ v ≤ 1) (i j : ℕ) : InUnit (setCell g i j v) := by
  intro row hrow w hw
  rcases List.mem_or_eq_of_mem_set hrow with hrow | rfl
  · exact h row hrow w hw
  · rcases List.mem_or_eq_of_mem_set hw with hw | rfl
    · rcases getD_eq_or_mem g i [] with he | hm
      · rw [he] at hw; cases hw
      · exact h _ hm w hw
    · exact hv

theorem inUnit_smoothCell {g : Grid} (h : InUnit g) (i j : ℕ) :
    InUnit (smoothCell g i j) := by
  unfold GameUtils.smoothCell GameUtils.smoothedValue
  apply inUnit_setCell h
  set c := cell g i j with hc
  set A := (cell g (i - 1) j + cell g (i + 1) j +
    cell g i (j - 1) + cell g i (j + 1)) / 4 with hA
  have hcm := inUnit_cell_mem h i j
  have h1 := inUnit_cell_mem h (i - 1) j
  have h2 := inUnit_cell_mem h (i + 1) j
  have h3 := inUnit_cell_mem h i (j - 1)
  have h4 := inUnit_cell_mem h i (j + 1)
  have hAm : 0 ≤ A ∧ A ≤ 1 := by
    constructor
    · rw [hA]; nlinarith [h1.1, h2.1, h3.1, h4.1]
    · rw [hA]; nlinarith [h1.2, h2.2, h3.2, h4.2]
  set w := Real.exp (-|c - A| / 0.2) with hw
  have hw0 : 0 < w := Real.exp_pos _
  have hw1 : w ≤ 1 := by
    rw [hw, Real.exp_le_one_iff]
    apply div_nonpos_of_nonpos_of_nonneg
    · simp [abs_nonneg]
    · norm_num
  constructor
  · nlinarith [hAm.1, hcm.1]
  · nlinarith [hAm.2, hcm.2]

theorem inUnit_smoothingPass {g : Grid} (h : InUnit g) (rows cols : ℕ) :
    InUnit (smoothingPass rows cols g) := by
  unfold GameUtils.smoothingPass
  generalize interior rows cols = l
  induction l generalizing g with
  | nil => exact h
  | cons p t ih => exact ih (inUnit_smoothCell h p.1 p.2)

theorem inUnit_gibbs {g : Grid} (h : InUnit g) (iterations : ℕ) :
    InUnit (gibbsSmoothingPass g iterations) := by
  unfold gibbsSmoothingPass
  induction iterations with
  | zero => exact h
  | succ n ih => rw [Function.iterate_succ_apply']; exact inUnit_smoothingPass ih _ _

theorem inUnit_buildGrid (rows cols : ℕ) (nN nU : ℕ → ℕ → ℝ) :
    InUnit (buildGrid rows cols nN nU) := by
  intro row hrow v hv
  simp only [buildGrid, List.mem_map] at hrow
  obtain ⟨i, _, rfl⟩ := hrow
  simp only [List.mem_map] at hv
  obtain ⟨j, _, rfl⟩ := hv
  exact clamp_mem_unit _

/-! ### C1 -/

/-- C1.  Every grid returned by `generateLossLandscape` has every cell value
in `[0, 1]`: each raw cell is clamped to `[0, 1]` before smoothing, and every
smoothing update is a convex combination (weight `exp(-|cell - avg| / 0.2)`
in `(0, 1]`) of the cell with the mean of its four neighbors, so it keeps
every cell in `[0, 1]`. -/
theorem generate_cells_in_unit_interval (width height resolution : ℕ)
    (nN nU : ℕ → ℕ → ℝ) (g : Grid)
    (hg : generateLossLandscape width height resolution nN nU = some g) :
    ∀ row ∈ g, ∀ v ∈ row, 0 ≤ v ∧ v ≤ 1 := by
  unfold generateLossLandscape at hg
  simp only at hg
  split at hg
  · cases hg
  · rw [Option.some_inj] at hg
    rw [← hg]
    exact inUnit_gibbs (inUnit_buildGrid _ _ nN nU) 1

/-- Witness for C1 at `width = height = 20`, `resolution = 5` (a 4 × 4 grid)
and zero noise: cell `(1, 1)` of the returned grid is in `[0, 1]`. -/
theorem generate_cells_in_unit_interval_witness :
    0 ≤ cell (gibbsSmoothingPass (buildGrid 4 4 (fun _ _ => 0) (fun _ _ => 0)) 1) 1 1 ∧
    cell (gibbsSmoothingPass (buildGrid 4 4 (fun _ _ => 0) (fun _ _ => 0)) 1) 1 1 ≤ 1 :=
  inUnit_cell_mem
    (generate_cells_in_unit_interval 20 20 5 (fun _ _ => 0) (fun _ _ => 0) _ rfl) 1 1

/-! ### Grid dimensions -/

/-- The grid has `rows` rows, every one of length `cols`. -/
def Dims (g : Grid) (rows cols : ℕ) : Prop :=
  g.length = rows ∧ ∀ row ∈ g, row.length = cols

theorem getD_mem_of_lt {α : Type} {l : List α} {i : ℕ} (h : i < l.length)
    (d : α) : l.getD i d ∈ l := by
  rw [List.getD_eq_getElem?_getD, List.getElem?_eq_getElem h]
  exact List.getElem_mem h

theorem headD_mem_of_ne_nil {α : Type} {l : List α} (h : 0 < l.length)
    (d : α) : l.headD d ∈ l := by
  rw [List.headD_eq_head?, List.head?_eq_getElem?, List.getElem?_eq_getElem h]
  exact List.getElem_mem h

theorem dims_setCell {g : Grid} {rows cols : ℕ} (hd : Dims g rows cols)
    {i : ℕ} (hi : i < rows) (j : ℕ) (v : ℝ) :
    Dims (setCell g i j v) rows cols := by
  refine ⟨by simpa [GameUtils.setCell] using hd.1, ?_⟩
  intro row hrow
  rcases List.mem_or_eq_of_mem_set hrow with hrow | rfl
  · exact hd.2 row hrow
  · rw [List.length_set]
    exact hd.2 _ (getD_mem_of_lt (by rw [hd.1]; exact hi) [])

theorem dims_smoothCell {g : Grid} {rows cols : ℕ} (hd : Dims g rows cols)
    {i : ℕ} (hi : i < rows) (j : ℕ) : Dims (smoothCell g i j) rows cols :=
  dims_setCell hd hi j _

theorem dims_smoothingPass {g : Grid} {rows cols : ℕ} (hd : Dims g rows cols) :
    Dims (smoothingPass rows cols g) rows cols := by
  unfold GameUtils.smoothingPass
  have hmem : ∀ p ∈ interior rows cols, p.1 < rows := by
    intro p hp
    simp only [interior, List.mem_filter, decide_eq_true_eq] at hp
    omega
  generalize hl : interior rows cols = l at hmem
  clear hl
  induction l generalizing g with
  | nil => exact hd
  | cons p t ih =>
    exact ih (dims_smoothCell hd (hmem p (by simp)) p.2) fun q hq => hmem q (by simp [hq])

theorem dims_gibbs {g : Grid} {rows cols : ℕ} (hd : Dims g rows cols)
    (hrows : 0 < rows) (iterations : ℕ) :
    Dims (gibbsSmoothingPass g iterations) rows cols := by
  have hlen : g.length = rows := hd.1
  have hcols : (g.headD []).length = cols :=
    hd.2 _ (headD_mem_of_ne_nil (by rw [hlen]; exact hrows) [])
  unfold gibbsSmoothingPass
  rw [hlen, hcols]
  induction iterations with
  | zero => exact hd
  | succ n ih => rw [Function.iterate_succ_apply']; exact dims_smoothingPass ih

theorem dims_buildGrid (rows cols : ℕ) (nN nU : ℕ → ℕ → ℝ) :
    Dims (buildGrid rows cols nN nU) rows cols := by
  refine ⟨by simp [buildGrid], ?_⟩
  intro row hrow
  simp only [buildGrid, List.mem_map] at hrow
  obtain ⟨i, _, rfl⟩ := hrow
  simp

/-! ### C5 -/

/-- Counterexample to C5.  At `width = height = 10`, `resolution = 5` we get
`cols = rows = 2 < 3`, yet `generateLossLandscape` returns a grid: the source
performs no dimension validation and no `InvalidDimension` error exists
anywhere in the repository. -/
theorem generate_no_invalid_dimension_counterexample :
    10 / 5 < 3 ∧
    ∃ g, generateLossLandscape 10 10 5 (fun _ _ => 0) (fun _ _ => 0) = some g :=
  ⟨by norm_num, _, rfl⟩

/-- C5 amended.  `generateLossLandscape` performs no dimension validation:
when `cols = ⌊width / resolution⌋ < 3` or `rows = ⌊height / resolution⌋ < 3`
it does not fail with any error; as long as `rows ≥ 1` (so the smoothing
pass's read of `grid[0].length` succeeds) it returns a `rows × cols` grid
whose interior the vacuously-empty smoothing loops never touched. -/
theorem generate_small_dims_returns_grid (width height resolution : ℕ)
    (nN nU : ℕ → ℕ → ℝ)
    (_hsmall : height / resolution < 3 ∨ width / resolution < 3)
    (hrows : 1 ≤ height / resolution) :
    ∃ g, generateLossLandscape width height resolution nN nU = some g ∧
      g.length = height / resolution ∧
      ∀ row ∈ g, row.length = width / resolution := by
  refine ⟨gibbsSmoothingPass
    (buildGrid (height / resolution) (width / resolution) nN nU) 1, ?_, ?_⟩
  · unfold generateLossLandscape
    simp only
    rw [if_neg (by omega)]
  · exact dims_gibbs (dims_buildGrid _ _ nN nU) hrows 1

/-- Witness for the amended C5 at `width = height = 10`, `resolution = 5`:
the generator succeeds despite `cols = rows = 2 < 3`. -/
theorem generate_small_dims_returns_grid_witness :
    (10 / 5 < 3 ∨ 10 / 5 < 3) ∧ 1 ≤ 10 / 5 ∧
    (generateLossLandscape 10 10 5 (fun _ _ => 1) (fun _ _ => 1)).isSome = true := by
  refine ⟨by norm_num, by norm_num, ?_⟩
  obtain ⟨g, hg, -, -⟩ := generate_small_dims_returns_grid 10 10 5
    (fun _ _ => 1) (fun _ _ => 1) (by norm_num) (by norm_num)
  rw [hg]
  rfl

/-! ### C7 -/

/-- C7 (code bug).  `boxMullerTransform` draws `u1 = Math.random()` with no
guard at all: `Math.random()` ranges over `[0, 1)`, so `u1 = 0` is a possible
draw, and there the source computes `Math.sqrt(-2 * Math.log(0)) * cos(...)`
= `Infinity * cos(...)`, which is not a finite real number (modelled as
`none`) — contradicting the claim that `u1` is guaranteed strictly positive
and the sample always finite.  This theorem evaluates the embedding at the
failing draw `u1 = 0`. -/
theorem boxMuller_zero_draw_not_finite :
    ∀ u2 : ℝ, boxMullerTransform 0 u2 = none := by
  intro u2
  simp [boxMullerTransform]

/-! ### C4 -/

theorem norm2_nonneg (v : ℝ × ℝ) : 0 ≤ norm2 v := Real.sqrt_nonneg _

theorem norm2_mul_right (x y t : ℝ) :
    norm2 (x * t, y * t) = |t| * norm2 (x, y) := by
  unfold norm2
  rw [show (x * t) ^ 2 + (y * t) ^ 2 = t ^ 2 * (x ^ 2 + y ^ 2) by ring,
    Real.sqrt_mul (sq_nonneg t), Real.sqrt_sq_eq_abs]

theorem maxPerturbationOf_pos {defenseStrength attackStrength : ℝ}
    (has : 0 < attackStrength) :
    0 < maxPerturbationOf attackStrength defenseStrength := by
  unfold maxPerturbationOf
  split <;> nlinarith

/-- C4.  In `simulateStep` the adversary's proposed displacement before the
final board clamp respects the perturbation budget
`maxPerturbation = 0.2 * attackStrength * (ratio > 1 ? 1.2 : 1.0)`: the
budget-clamped displacement has norm at most `maxPerturbation`; whenever the
raw proposal's norm exceeds the budget it is rescaled to exactly that norm by
the positive factor `maxPerturbation / advDist` (direction preserved); and
the separately-added targeted-jump displacement is bounded by
`0.15 * maxPerturbation`. -/
theorem adversary_perturbation_budget
    (advDx advDy defenseStrength attackStrength : ℝ)
    (_hds : 0 < defenseStrength) (has : 0 < attackStrength) :
    norm2 (budgetClamp advDx advDy (maxPerturbationOf attackStrength defenseStrength))
      ≤ maxPerturbationOf attackStrength defenseStrength ∧
    (norm2 (advDx, advDy) > maxPerturbationOf attackStrength defenseStrength →
      norm2 (budgetClamp advDx advDy (maxPerturbationOf attackStrength defenseStrength))
        = maxPerturbationOf attackStrength defenseStrength ∧
      budgetClamp advDx advDy (maxPerturbationOf attackStrength defenseStrength)
        = (advDx * (maxPerturbationOf attackStrength defenseStrength / norm2 (advDx, advDy)),
           advDy * (maxPerturbationOf attackStrength defenseStrength / norm2 (advDx, advDy))) ∧
      0 < maxPerturbationOf attackStrength defenseStrength / norm2 (advDx, advDy)) ∧
    ∀ defender adversary : ℝ × ℝ,
      norm2 (targetedJump defender adversary
          (maxPerturbationOf attackStrength defenseStrength))
        ≤ 0.15 * maxPerturbationOf attackStrength defenseStrength := by
  set maxP := maxPerturbationOf attackStrength defenseStrength with hmp
  have hmaxP : 0 < maxP := maxPerturbationOf_pos has
  set d := norm2 (advDx, advDy) with hdd
  have hd0 : 0 ≤ d := norm2_nonneg _
  have hclamp : norm2 (budgetClamp advDx advDy maxP) ≤ maxP ∧
      (d > maxP → norm2 (budgetClamp advDx advDy maxP) = maxP ∧
        budgetClamp advDx advDy maxP = (advDx * (maxP / d), advDy * (maxP / d)) ∧
        0 < maxP / d) := by
    rw [show budgetClamp advDx advDy maxP =
      if d > maxP then (advDx * (maxP / d), advDy * (maxP / d))
      else (advDx, advDy) from rfl]
    split_ifs with h
    · have hdpos : 0 < d := lt_trans hmaxP h
      have hnorm : norm2 (advDx * (maxP / d), advDy * (maxP / d)) = maxP := by
        rw [norm2_mul_right, ← hdd, abs_of_pos (by positivity)]
        field_simp
      exact ⟨le_of_eq hnorm, fun _ => ⟨hnorm, rfl, by positivity⟩⟩
    · exact ⟨le_of_not_lt h, fun hcon => absurd hcon h⟩
  refine ⟨hclamp.1, hclamp.2, ?_⟩
  intro defender adversary
  unfold targetedJump
  simp only
  split_ifs with h
  · set dirX := defender.1 - adversary.1 with hdx
    set dirY := defender.2 - adversary.2 with hdy
    set dirMag := Real.sqrt (dirX * dirX + dirY * dirY) with hdm
    have hmag : dirMag = norm2 (dirX, dirY) := by
      rw [hdm]; unfold norm2; ring_nf
    have heq : ((dirX / dirMag) * 0.15 * maxP, (dirY / dirMag) * 0.15 * maxP)
        = (dirX * (0.15 * maxP / dirMag), dirY * (0.15 * maxP / dirMag)) := by
      rw [Prod.mk.injEq]
      constructor <;> ring
    rw [heq, norm2_mul_right, ← hmag, abs_of_nonneg (by positivity)]
    rw [div_mul_eq_mul_div, mul_div_assoc]
    have : dirMag / dirMag = 1 := div_self (ne_of_gt h)
    rw [this, mul_one]
  · have : norm2 ((0 : ℝ), (0 : ℝ)) = 0 := by
      unfold norm2; simp
    rw [this]
    positivity

/-- Witness for C4 at `advDx = 3`, `advDy = 4`, `defenseStrength = 1`,
`attackStrength = 2`, jump from `(3, 4)` toward `(0, 0)`. -/
theorem adversary_perturbation_budget_witness :
    (0 : ℝ) < 1 ∧ (0 : ℝ) < 2 ∧
    norm2 (budgetClamp 3 4 (maxPerturbationOf 2 1)) ≤ maxPerturbationOf 2 1 ∧
    norm2 (targetedJump (0, 0) (3, 4) (maxPerturbationOf 2 1))
      ≤ 0.15 * maxPerturbationOf 2 1 := by
  obtain ⟨h1, -, h3⟩ :=
    adversary_perturbation_budget 3 4 1 2 (by norm_num) (by norm_num)
  exact ⟨by norm_num, by norm_num, h1, h3 (0, 0) (3, 4)⟩

/-! ### C8 -/

/-- C8.  With the other arguments of `calculateDynamicLoss` held fixed and
`attackStrength > defenseStrength`, increasing `attackStrength` does not
decrease the defender loss's upward adjustment nor the adversary loss's
downward adjustment: the advantage factor
`max(0, ratio - 1) * 0.15` is monotone nondecreasing in `attackStrength`, the
adjusted defender loss `min(L * (1 + advantage), 1)` is nondecreasing in
`attackStrength`, and the adjusted adversary loss
`max(A * (1 - advantage), 0)` is nonincreasing in `attackStrength` (for
nonnegative pre-adjustment losses `L`, `A`). -/
theorem strength_advantage_monotone (defenseStrength as1 as2 L A : ℝ)
    (hds : 0 < defenseStrength) (_h1 : defenseStrength < as1) (h12 : as1 ≤ as2)
    (hL : 0 ≤ L) (hA : 0 ≤ A) :
    strengthAdvantageOf as1 defenseStrength ≤ strengthAdvantageOf as2 defenseStrength ∧
    defAdjust L (strengthAdvantageOf as1 defenseStrength)
      ≤ defAdjust L (strengthAdvantageOf as2 defenseStrength) ∧
    advAdjust A (strengthAdvantageOf as2 defenseStrength)
      ≤ advAdjust A (strengthAdvantageOf as1 defenseStrength) := by
  have hdiv : as1 / defenseStrength ≤ as2 / defenseStrength := by gcongr
  have hadv : strengthAdvantageOf as1 defenseStrength
      ≤ strengthAdvantageOf as2 defenseStrength := by
    unfold strengthAdvantageOf
    have := max_le_max (le_refl (0 : ℝ)) (by linarith : as1 / defenseStrength - 1 ≤ as2 / defenseStrength - 1)
    nlinarith [this]
  refine ⟨hadv, ?_, ?_⟩
  · unfold defAdjust
    exact min_le_min (by nlinarith) (le_refl 1)
  · unfold advAdjust
    exact max_le_max (by nlinarith) (le_refl 0)

/-- Witness for C8 at `defenseStrength = 1`, `as1 = 2`, `as2 = 3`,
`L = A = 1/2`. -/
theorem strength_advantage_monotone_witness :
    (0 : ℝ) < 1 ∧ (1 : ℝ) < 2 ∧ (2 : ℝ) ≤ 3 ∧ (0 : ℝ) ≤ 1 / 2 ∧
    (strengthAdvantageOf 2 1 ≤ strengthAdvantageOf 3 1 ∧
    defAdjust (1 / 2) (strengthAdvantageOf 2 1)
      ≤ defAdjust (1 / 2) (strengthAdvantageOf 3 1) ∧
    advAdjust (1 / 2) (strengthAdvantageOf 3 1)
      ≤ advAdjust (1 / 2) (strengthAdvantageOf 2 1)) :=
  ⟨by norm_num, by norm_num, by norm_num, by norm_num,
    strength_advantage_monotone 1 2 3 (1 / 2) (1 / 2) (by norm_num)
      (by norm_num) (by norm_num) (by norm_num) (by norm_num)⟩

/-! ### C2 and C3: in-bounds reads and clamped outputs -/

theorem clamp_mem {v lo hi : ℝ} (h : lo ≤ hi) :
    lo ≤ clamp v lo hi ∧ clamp v lo hi ≤ hi :=
  ⟨le_min (le_max_right v lo) h, min_le_right _ _⟩

theorem getCell?_eq_some {g : Grid} {rows cols : ℕ} (hd : Dims g rows cols)
    {i j : ℤ} (hi0 : 0 ≤ i) (hi : i < (rows : ℤ))
    (hj0 : 0 ≤ j) (hj : j < (cols : ℤ)) :
    ∃ v, getCell? g i j = some v := by
  have hiN : i.toNat < g.length := by rw [hd.1]; omega
  have hjN : j.toNat < (g[i.toNat]).length := by
    rw [hd.2 _ (List.getElem_mem hiN), ← hd.2 _ (List.getElem_mem hiN)]
    rw [hd.2 _ (List.getElem_mem hiN)]
    omega
  refine ⟨(g[i.toNat])[j.toNat], ?_⟩
  unfold getCell?
  rw [if_pos ⟨hi0, hj0⟩, List.get?_eq_getElem?, List.getElem?_eq_getElem hiN]
  simp only [Option.some_bind]
  rw [List.get?_eq_getElem?, List.getElem?_eq_getElem hjN]

theorem calculateGradient_eq_some {g : Grid} {rows cols : ℕ}
    (hd : Dims g rows cols) (h3r : 3 ≤ rows) (h3c : 3 ≤ cols)
    (x y noiseLevel n1 n2 : ℝ) :
    ∃ p, calculateGradient g x y noiseLevel n1 n2 = some p := by
  have hlen : g.length = rows := hd.1
  have hcols : (g.headD []).length = cols :=
    hd.2 _ (headD_mem_of_ne_nil (by omega) [])
  have hrow : 1 ≤ gradRow g y ∧ gradRow g y ≤ (rows : ℤ) - 2 := by
    unfold gradRow
    rw [hlen]
    exact ⟨le_min (le_max_right _ _) (by omega), min_le_right _ _⟩
  have hcol : 1 ≤ gradCol g x ∧ gradCol g x ≤ (cols : ℤ) - 2 := by
    unfold gradCol
    rw [hcols]
    exact ⟨le_min (le_max_right _ _) (by omega), min_le_right _ _⟩
  obtain ⟨v1, h1⟩ := getCell?_eq_some hd (i := gradRow g y) (j := gradCol g x + 1)
    (by omega) (by omega) (by omega) (by omega)
  obtain ⟨v2, h2⟩ := getCell?_eq_some hd (i := gradRow g y) (j := gradCol g x - 1)
    (by omega) (by omega) (by omega) (by omega)
  obtain ⟨v3, h3⟩ := getCell?_eq_some hd (i := gradRow g y + 1) (j := gradCol g x)
    (by omega) (by omega) (by omega) (by omega)
  obtain ⟨v4, h4⟩ := getCell?_eq_some hd (i := gradRow g y - 1) (j := gradCol g x)
    (by omega) (by omega) (by omega) (by omega)
  unfold calculateGradient
  rw [h1, h2, h3, h4]
  exact ⟨_, rfl⟩

/-- C2 amended.  For every rectangular grid with at least 3 rows and 3
columns (so that the gradient reads are in bounds) and any positions,
strengths and noise draws, `simulateStep` returns positions and both lie in
the box `[0, cols-1] × [0, rows-1]`: after the displacements both positions
are clamped independently to that box. -/
theorem simulateStep_positions_in_bounds {g : Grid} {rows cols : ℕ}
    (hd : Dims g rows cols) (h3r : 3 ≤ rows) (h3c : 3 ≤ cols)
    (defender adversary : ℝ × ℝ)
    (defenseStrength attackStrength nd1 nd2 na1 na2 u : ℝ) :
    ∃ p, simulateStep defender adversary g defenseStrength attackStrength
        nd1 nd2 na1 na2 u = some p ∧
      0 ≤ p.1.1 ∧ p.1.1 ≤ (cols : ℝ) - 1 ∧ 0 ≤ p.1.2 ∧ p.1.2 ≤ (rows : ℝ) - 1 ∧
      0 ≤ p.2.1 ∧ p.2.1 ≤ (cols : ℝ) - 1 ∧ 0 ≤ p.2.2 ∧ p.2.2 ≤ (rows : ℝ) - 1 := by
  obtain ⟨dg, hdg⟩ := calculateGradient_eq_some hd h3r h3c defender.1 defender.2
    (defenderNoiseLevel defenseStrength attackStrength) nd1 nd2
  obtain ⟨ag, hag⟩ := calculateGradient_eq_some hd h3r h3c adversary.1 adversary.2
    (adversaryNoiseLevel defenseStrength attackStrength) na1 na2
  have hlen : g.length = rows := hd.1
  have hcols : (g.headD []).length = cols :=
    hd.2 _ (headD_mem_of_ne_nil (by omega) [])
  have hcolsR : (0 : ℝ) ≤ (cols : ℝ) - 1 := by
    have : (3 : ℝ) ≤ (cols : ℝ) := by exact_mod_cast h3c
    linarith
  have hrowsR : (0 : ℝ) ≤ (rows : ℝ) - 1 := by
    have : (3 : ℝ) ≤ (rows : ℝ) := by exact_mod_cast h3r
    linarith
  simp only [simulateStep, hdg, hag, hlen, hcols]
  exact ⟨_, rfl, (clamp_mem hcolsR).1, (clamp_mem hcolsR).2,
    (clamp_mem hrowsR).1, (clamp_mem hrowsR).2,
    (clamp_mem hcolsR).1, (clamp_mem hcolsR).2,
    (clamp_mem hrowsR).1, (clamp_mem hrowsR).2⟩

/-- Witness for the amended C2 on the constant 3 × 3 grid of value `1/2`:
the step succeeds (returns positions). -/
theorem simulateStep_positions_in_bounds_witness :
    Dims (List.replicate 3 (List.replicate 3 ((1 : ℝ) / 2))) 3 3 ∧ 3 ≤ 3 ∧
    (simulateStep (1, 1) (1, 1)
      (List.replicate 3 (List.replicate 3 ((1 : ℝ) / 2))) 5 5 0 0 0 0 0).isSome
      = true := by
  have hd : Dims (List.replicate 3 (List.replicate 3 ((1 : ℝ) / 2))) 3 3 := by
    refine ⟨by simp, ?_⟩
    intro row hrow
    rw [List.eq_of_mem_replicate hrow]
    simp
  refine ⟨hd, by norm_num, ?_⟩
  obtain ⟨p, hp, -⟩ := simulateStep_positions_in_bounds hd (by norm_num)
    (by norm_num) (1, 1) (1, 1) 5 5 0 0 0 0 0
  rw [hp]
  rfl

/-- Counterexample to C2 as stated.  On the 1 × 1 grid `[[1/2]]` (one row,
one column, as allowed by the claim) the gradient's clamped row index is
`min(max(0, 1), -1) = -1`, an out-of-bounds read (`grid[-1]` is `undefined`
and the source throws a `TypeError`), so `simulateStep` returns no positions
at all, let alone positions inside the box. -/
theorem simulateStep_one_by_one_counterexample :
    simulateStep (0, 0) (0, 0) [[(1 : ℝ) / 2]] 5 5 0 0 0 0 0 = none := by
  have hg : calculateGradient [[(1 : ℝ) / 2]] 0 0
      (defenderNoiseLevel 5 5) 0 0 = none := by
    have hrow : gradRow [[(1 : ℝ) / 2]] 0 = -1 := by
      unfold gradRow
      norm_num
    unfold calculateGradient
    rw [hrow]
    have h1 : ∀ j : ℤ, getCell? [[(1 : ℝ) / 2]] (-1) j = none := by
      intro j
      unfold getCell?
      rw [if_neg (by omega)]
    rw [h1, h1]
  simp only [simulateStep, hg]

/-- C3.  For every non-empty rectangular grid, positions, iteration,
positive strength parameters and noise draws, `calculateDynamicLoss` returns
a loss pair and both scalars lie in `[0, 1]`: whatever the noise, oscillation,
advantage scaling and growing-gap term produce, both outputs are clamped to
`[0, 1]` at the end. -/
theorem calculateDynamicLoss_in_unit {g : Grid} {rows cols : ℕ}
    (hd : Dims g rows cols) (h1r : 1 ≤ rows) (h1c : 1 ≤ cols)
    (defender adversary : ℝ × ℝ) (iteration : ℕ)
    (defenseStrength attackStrength : ℝ) (_hds : 0 < defenseStrength)
    (n1 n2 : ℝ) :
    ∃ p, calculateDynamicLoss g defender adversary iteration
        defenseStrength attackStrength n1 n2 = some p ∧
      0 ≤ p.1 ∧ p.1 ≤ 1 ∧ 0 ≤ p.2 ∧ p.2 ≤ 1 := by
  have hlen : g.length = rows := hd.1
  have hcols : (g.headD []).length = cols :=
    hd.2 _ (headD_mem_of_ne_nil (by omega) [])
  have hrowB : ∀ y : ℝ, 0 ≤ lossRow g y ∧ lossRow g y ≤ (rows : ℤ) - 1 := by
    intro y
    unfold lossRow
    rw [hlen]
    exact ⟨le_min (le_max_right _ _) (by omega), min_le_right _ _⟩
  have hcolB : ∀ x : ℝ, 0 ≤ lossCol g x ∧ lossCol g x ≤ (cols : ℤ) - 1 := by
    intro x
    unfold lossCol
    rw [hcols]
    exact ⟨le_min (le_max_right _ _) (by omega), min_le_right _ _⟩
  obtain ⟨v1, h1⟩ := getCell?_eq_some hd (i := lossRow g defender.2)
    (j := lossCol g defender.1) (hrowB defender.2).1
    (by have := (hrowB defender.2).2; omega) (hcolB defender.1).1
    (by have := (hcolB defender.1).2; omega)
  obtain ⟨v2, h2⟩ := getCell?_eq_some hd (i := lossRow g adversary.2)
    (j := lossCol g adversary.1) (hrowB adversary.2).1
    (by have := (hrowB adversary.2).2; omega) (hcolB adversary.1).1
    (by have := (hcolB adversary.1).2; omega)
  simp only [calculateDynamicLoss, h1, h2]
  exact ⟨_, rfl, (clamp_mem_unit _).1, (clamp_mem_unit _).2,
    (clamp_mem_unit _).1, (clamp_mem_unit _).2⟩

/-- Witness for C3 on the 1 × 1 grid `[[1/2]]` at iteration 0: the loss
computation succeeds (returns a pair). -/
theorem calculateDynamicLoss_in_unit_witness :
    Dims [[(1 : ℝ) / 2]] 1 1 ∧ (0 : ℝ) < 5 ∧
    (calculateDynamicLoss [[(1 : ℝ) / 2]] (0, 0) (0, 0) 0 5 5 0 0).isSome = true := by
  have hd : Dims [[(1 : ℝ) / 2]] 1 1 :=
    ⟨by simp, by intro row hrow; simp at hrow; simp [hrow]⟩
  refine ⟨hd, by norm_num, ?_⟩
  obtain ⟨p, hp, -⟩ := calculateDynamicLoss_in_unit hd (by norm_num)
    (by norm_num) (0, 0) (0, 0) 0 5 5 (by norm_num) 0 0
  rw [hp]
  rfl

/-! ### C6: reading discipline of the smoothing pass -/

theorem getD_set_self {α : Type} {l : List α} {i : ℕ} (h : i < l.length)
    (a d : α) : (l.set i a).getD i d = a := by
  rw [List.getD_eq_getElem?_getD, List.getElem?_set_self h, Option.getD_some]

theorem getD_set_ne {α : Type} {l : List α} {i i' : ℕ} (h : i ≠ i')
    (a d : α) : (l.set i a).getD i' d = l.getD i' d := by
  rw [List.getD_eq_getElem?_getD, List.getElem?_set_ne h,
    ← List.getD_eq_getElem?_getD]

theorem cell_setCell_self {g : Grid} {i j : ℕ} (hi : i < g.length)
    (hj : j < (g.getD i []).length) (v : ℝ) :
    cell (setCell g i j v) i j = v := by
  unfold cell setCell
  rw [getD_set_self (l := g) hi, getD_set_self (l := g.getD i []) hj]

theorem cell_setCell_ne {g : Grid} {i j i' j' : ℕ} (h : i ≠ i' ∨ j ≠ j')
    (v : ℝ) : cell (setCell g i j v) i' j' = cell g i' j' := by
  unfold cell setCell
  by_cases hii : i = i'
  · subst hii
    have hjj : j ≠ j' := h.resolve_left (by simp)
    by_cases hlt : i < g.length
    · rw [getD_set_self (l := g) hlt, getD_set_ne (l := g.getD i []) hjj]
    · rw [List.set_eq_of_length_le (by omega)]
  · rw [getD_set_ne (l := g) hii]

theorem cell_smoothCell_ne {g : Grid} {i j i' j' : ℕ} (h : i ≠ i' ∨ j ≠ j') :
    cell (smoothCell g i j) i' j' = cell g i' j' :=
  cell_setCell_ne h _

theorem smoothingPass_cell_untouched {rows cols i j : ℕ}
    (h : ∀ p ∈ interior rows cols, p.1 ≠ i ∨ p.2 ≠ j) (g : Grid) :
    cell (smoothingPass rows cols g) i j = cell g i j := by
  unfold smoothingPass
  generalize hl : interior rows cols = l at h
  clear hl
  induction l generalizing g with
  | nil => rfl
  | cons p t ih =>
    rw [List.foldl_cons, ih _ fun q hq => h q (List.mem_cons_of_mem p hq)]
    exact cell_smoothCell_ne (h p (List.mem_cons_self p t))

/-- C6 amended.  Each pass of `gibbsSmoothingPass` updates the interior
cells in place, in row-major order, reading the current (partially updated)
grid rather than a pre-pass snapshot — so the result is not in general the
snapshot-based pass the specification describes — but it does leave the
outermost ring untouched: every cell on the border (row 0, last row,
column 0 or last column) keeps its original value after any number of
passes. -/
theorem gibbs_border_untouched (g : Grid) (iterations : ℕ) (i j : ℕ)
    (h : i = 0 ∨ i = g.length - 1 ∨ j = 0 ∨ j = (g.headD []).length - 1) :
    cell (gibbsSmoothingPass g iterations) i j = cell g i j := by
  unfold gibbsSmoothingPass
  have hmem : ∀ p ∈ interior g.length (g.headD []).length, p.1 ≠ i ∨ p.2 ≠ j := by
    intro p hp
    obtain ⟨p1, p2⟩ := p
    simp only [interior, List.mem_filter, List.mem_product, List.mem_range,
      decide_eq_true_eq] at hp
    omega
  induction iterations with
  | zero => rfl
  | succ n ih => rw [Function.iterate_succ_apply', smoothingPass_cell_untouched hmem, ih]

/-- Witness for the amended C6: on the 2 × 2 grid `[[1, 2], [3, 4]]` the
corner `(0, 0)` keeps its value through one pass. -/
theorem gibbs_border_untouched_witness :
    ((0 : ℕ) = 0 ∨ (0 : ℕ) = [[(1 : ℝ), 2], [3, 4]].length - 1 ∨ (0 : ℕ) = 0 ∨
      (0 : ℕ) = ([[(1 : ℝ), 2], [3, 4]].headD []).length - 1) ∧
    cell (gibbsSmoothingPass [[(1 : ℝ), 2], [3, 4]] 1) 0 0
      = cell [[(1 : ℝ), 2], [3, 4]] 0 0 :=
  ⟨Or.inl rfl, gibbs_border_untouched [[(1 : ℝ), 2], [3, 4]] 1 0 0 (Or.inl rfl)⟩

/-- Concrete 3 × 4 grid on which the source's in-place smoothing pass and
the specification's snapshot-based pass give different results: updating
`(1, 1)` first changes the neighbor average that `(1, 2)` reads. -/
noncomputable def smoothDemoGrid : Grid :=
  [[0, 0, 3 / 5, 0], [0, 0, 2 / 5, 2 / 5], [0, 0, 3 / 5, 0]]

/-- The update formula written out (the `let`s of `smoothedValue` expanded). -/
theorem smoothedValue_eq (g : Grid) (i j : ℕ) :
    smoothedValue g i j =
      Real.exp (-|cell g i j - (cell g (i - 1) j + cell g (i + 1) j +
          cell g i (j - 1) + cell g i (j + 1)) / 4| / 0.2) *
        ((cell g (i - 1) j + cell g (i + 1) j +
          cell g i (j - 1) + cell g i (j + 1)) / 4) +
      (1 - Real.exp (-|cell g i j - (cell g (i - 1) j + cell g (i + 1) j +
          cell g i (j - 1) + cell g i (j + 1)) / 4| / 0.2)) * cell g i j := rfl

theorem cell_mapGrid (rows cols : ℕ) (f : ℕ → ℕ → ℝ) {i j : ℕ}
    (hi : i < rows) (hj : j < cols) :
    cell ((List.range rows).map fun i => (List.range cols).map fun j => f i j)
      i j = f i j := by
  unfold cell
  have h1 : ((List.range rows).map fun i =>
      (List.range cols).map fun j => f i j).getD i []
      = (List.range cols).map fun j => f i j := by
    rw [List.getD_eq_getElem?_getD, List.getElem?_map, List.getElem?_range hi,
      Option.map_some', Option.getD_some]
  rw [h1, List.getD_eq_getElem?_getD, List.getElem?_map, List.getElem?_range hj,
    Option.map_some', Option.getD_some]

/-- Counterexample to C6.  On `smoothDemoGrid` the in-place pass of the
source and the snapshot pass of the specification disagree at the interior
cell `(1, 2)`: the snapshot pass leaves it at `2/5` (its value equals its
pre-pass neighbor average), while the in-place pass first raises cell
`(1, 1)` and then pulls `(1, 2)` strictly above `2/5` through the updated
neighbor — so an interior cell does see mid-pass values, and the in-place
result is not the snapshot result. -/
theorem gibbs_not_snapshot_counterexample :
    cell (gibbsSmoothingPass smoothDemoGrid 1) 1 2
      ≠ cell (snapshotSmoothingPass smoothDemoGrid 1) 1 2 := by
  have hdemo : Dims smoothDemoGrid 3 4 := by
    refine ⟨rfl, ?_⟩
    intro row hrow
    simp only [smoothDemoGrid, List.mem_cons, List.not_mem_nil, or_false] at hrow
    rcases hrow with rfl | rfl | rfl <;> rfl
  have hpass : gibbsSmoothingPass smoothDemoGrid 1
      = smoothCell (smoothCell smoothDemoGrid 1 1) 1 2 := by
    unfold gibbsSmoothingPass smoothingPass
    rw [Function.iterate_one,
      show smoothDemoGrid.length = 3 from rfl,
      show (smoothDemoGrid.headD []).length = 4 from rfl,
      show interior 3 4 = [(1, 1), (1, 2)] from by decide]
    rfl
  set G1 := smoothCell smoothDemoGrid 1 1 with hG1
  have hd1 : Dims G1 3 4 := dims_smoothCell hdemo (by norm_num) 1
  -- cells of G1
  have h11 : cell G1 1 1 = smoothedValue smoothDemoGrid 1 1 :=
    cell_setCell_self (by rw [hdemo.1]; omega)
      (by rw [hdemo.2 _ (getD_mem_of_lt (by rw [hdemo.1]; omega) [])]; omega) _
  have h02 : cell G1 0 2 = 3 / 5 := by
    rw [hG1, cell_smoothCell_ne (Or.inl (by omega))]
    exact rfl
  have h22 : cell G1 2 2 = 3 / 5 := by
    rw [hG1, cell_smoothCell_ne (Or.inl (by omega))]
    exact rfl
  have h13 : cell G1 1 3 = 2 / 5 := by
    rw [hG1, cell_smoothCell_ne (Or.inr (by omega))]
    exact rfl
  have h12 : cell G1 1 2 = 2 / 5 := by
    rw [hG1, cell_smoothCell_ne (Or.inr (by omega))]
    exact rfl
  -- the first update raises cell (1, 1) strictly above 0
  set sm1 := smoothedValue smoothDemoGrid 1 1 with hsm1
  have hsm1pos : 0 < sm1 := by
    rw [hsm1, smoothedValue_eq]
    rw [show cell smoothDemoGrid 0 1 = 0 from rfl,
      show cell smoothDemoGrid 2 1 = 0 from rfl,
      show cell smoothDemoGrid 1 0 = 0 from rfl,
      show cell smoothDemoGrid 1 2 = 2 / 5 from rfl,
      show cell smoothDemoGrid 1 1 = 0 from rfl]
    have := Real.exp_pos (-|(0 : ℝ) - (0 + 0 + 0 + 2 / 5) / 4| / 0.2)
    nlinarith [this]
  -- the in-place result at (1, 2)
  have hleft : cell (gibbsSmoothingPass smoothDemoGrid 1) 1 2
      = smoothedValue G1 1 2 := by
    rw [hpass]
    exact cell_setCell_self (by rw [hd1.1]; omega)
      (by rw [hd1.2 _ (getD_mem_of_lt (by rw [hd1.1]; omega) [])]; omega) _
  have hleft2 : smoothedValue G1 1 2
      = Real.exp (-|2 / 5 - (3 / 5 + 3 / 5 + sm1 + 2 / 5) / 4| / 0.2) *
          ((3 / 5 + 3 / 5 + sm1 + 2 / 5) / 4) +
        (1 - Real.exp (-|2 / 5 - (3 / 5 + 3 / 5 + sm1 + 2 / 5) / 4| / 0.2)) *
          (2 / 5) := by
    rw [smoothedValue_eq]
    norm_num [h02, h22, h11, h13, h12, hsm1]
  -- the snapshot result at (1, 2) is exactly 2/5
  have hsnap : cell (snapshotSmoothingPass smoothDemoGrid 1) 1 2 = 2 / 5 := by
    unfold snapshotSmoothingPass
    simp only [Function.iterate_one,
      show smoothDemoGrid.length = 3 from rfl,
      show (smoothDemoGrid.headD []).length = 4 from rfl]
    rw [cell_mapGrid 3 4 _ (by omega) (by omega), if_pos (by omega)]
    rw [smoothedValue_eq]
    rw [show cell smoothDemoGrid 0 2 = 3 / 5 from rfl,
      show cell smoothDemoGrid 2 2 = 3 / 5 from rfl,
      show cell smoothDemoGrid 1 1 = 0 from rfl,
      show cell smoothDemoGrid 1 3 = 2 / 5 from rfl,
      show cell smoothDemoGrid 1 2 = 2 / 5 from rfl]
    norm_num
  rw [hleft, hleft2, hsnap]
  have hE2 := Real.exp_pos (-|2 / 5 - (3 / 5 + 3 / 5 + sm1 + 2 / 5) / 4| / 0.2)
  intro hcon
  nlinarith [mul_pos hE2 hsm1pos]

/-! ### C9: flat landscape, zero gradient, fixed defender -/

/-- The flat 20 × 20 stub landscape of the scenario: every cell `0.5`. -/
noncomputable def flatGrid : Grid := List.replicate 20 (List.replicate 20 (1 / 2))

theorem getCell?_replicate {n m : ℕ} {a : ℝ} {i j : ℤ}
    (hi0 : 0 ≤ i) (hi : i < (n : ℤ)) (hj0 : 0 ≤ j) (hj : j < (m : ℤ)) :
    getCell? (List.replicate n (List.replicate m a)) i j = some a := by
  unfold getCell?
  rw [if_pos ⟨hi0, hj0⟩, List.get?_eq_getElem?, List.getElem?_replicate,
    if_pos (by omega)]
  simp only [Option.some_bind]
  rw [List.get?_eq_getElem?, List.getElem?_replicate, if_pos (by omega)]

/-- On the flat grid the central differences vanish, and the injected
gradient noise is multiplied by the absolute values `|dx| = |dy| = 0`, so the
gradient is exactly `(0, 0)` at every point, every noise level and every
noise draw. -/
theorem calculateGradient_flatGrid (x y noiseLevel n1 n2 : ℝ) :
    calculateGradient flatGrid x y noiseLevel n1 n2 = some (0, 0) := by
  have hlen : flatGrid.length = 20 := rfl
  have hhead : (flatGrid.headD []).length = 20 := rfl
  have hr : 1 ≤ gradRow flatGrid y ∧ gradRow flatGrid y ≤ 18 := by
    unfold gradRow
    rw [hlen]
    exact ⟨le_min (le_max_right _ _) (by norm_num), min_le_right _ _⟩
  have hc : 1 ≤ gradCol flatGrid x ∧ gradCol flatGrid x ≤ 18 := by
    unfold gradCol
    rw [hhead]
    exact ⟨le_min (le_max_right _ _) (by norm_num), min_le_right _ _⟩
  have h1 : getCell? flatGrid (gradRow flatGrid y) (gradCol flatGrid x + 1)
      = some (1 / 2) := getCell?_replicate (by omega) (by omega) (by omega) (by omega)
  have h2 : getCell? flatGrid (gradRow flatGrid y) (gradCol flatGrid x - 1)
      = some (1 / 2) := getCell?_replicate (by omega) (by omega) (by omega) (by omega)
  have h3 : getCell? flatGrid (gradRow flatGrid y + 1) (gradCol flatGrid x)
      = some (1 / 2) := getCell?_replicate (by omega) (by omega) (by omega) (by omega)
  have h4 : getCell? flatGrid (gradRow flatGrid y - 1) (gradCol flatGrid x)
      = some (1 / 2) := getCell?_replicate (by omega) (by omega) (by omega) (by omega)
  unfold calculateGradient
  rw [h1, h2, h3, h4]
  simp only [Option.some.injEq, Prod.mk.injEq]
  constructor <;> · split_ifs <;> norm_num

/-- C9.  On the flat 20 × 20 grid of constant value `0.5`,
`calculateGradient` at `(5, 14)` with `noiseLevel = 0` returns
`dx = dy = 0`; consequently in `simulateStep` (with
`defenseStrength = attackStrength = 5`, adversary at `(14, 5)`) the
defender's displacement is exactly `(0, 0)` whatever the noise draws — the
injected noise is multiplied by `|dx| = |dy| = 0` — so the defender position
`(5, 14)` is returned unchanged. -/
theorem flat_grid_zero_gradient_defender_fixed :
    (∀ n1 n2 : ℝ, calculateGradient flatGrid 5 14 0 n1 n2 = some (0, 0)) ∧
    ∀ nd1 nd2 na1 na2 u : ℝ,
      ∃ adv, simulateStep (5, 14) (14, 5) flatGrid 5 5 nd1 nd2 na1 na2 u
        = some ((5, 14), adv) := by
  constructor
  · intro n1 n2
    exact calculateGradient_flatGrid 5 14 0 n1 n2
  · intro nd1 nd2 na1 na2 u
    refine ⟨((14 : ℝ), (5 : ℝ)), ?_⟩
    have hhead : ((flatGrid.headD []).length : ℝ) = 20 := by
      rw [show (flatGrid.headD []).length = 20 from rfl]
      norm_num
    have hlen : ((flatGrid.length : ℕ) : ℝ) = 20 := by
      rw [show flatGrid.length = 20 from rfl]
      norm_num
    simp only [simulateStep, calculateGradient_flatGrid, hhead, hlen]
    norm_num [norm2, budgetClamp, targetedJump, maxPerturbationOf, clamp,
      Real.sqrt_zero]

end GameUtils
